import Mathlib

/-!
Shallow embedding of the conversion orchestration subsystem of
`ekko-convert` (Go backend, `apps/(backend)/cmd/server/main.go`), and proofs
of the specification claims about it.

Go machine floats are modelled as rationals (`ℚ`); `strconv.ParseFloat` is
modelled on its plain-decimal subset (optional sign, digits with at most one
decimal point), which covers every numeric string format the program's own
parsers feed it. String scanning helpers (`strings.Split`, `strings.SplitN`
with limit 2, `strings.Contains`, `strings.TrimSpace`) are embedded as
structurally recursive functions on character lists so that all definitions
evaluate inside the kernel.
-/

namespace Ekko

/-- Model of Go `strings.Split` for a single-character separator, on
character lists: `splitOnChar ':' "a:b"` gives `["a", "b"]`, and the empty
string gives `[""]`, as in Go. -/
def splitOnChar (sep : Char) : List Char → List (List Char)
  | [] => [[]]
  | c :: rest =>
    let r := splitOnChar sep rest
    if c = sep then [] :: r
    else
      match r with
      | [] => [[c]]
      | g :: gs => (c :: g) :: gs

/-- Model of Go `strings.SplitN(s, sep, 2)` for a single-character
separator: split at the first occurrence only, yielding one part when the
separator is absent and exactly two parts otherwise. -/
def splitN2Char (sep : Char) : List Char → List (List Char)
  | [] => [[]]
  | c :: rest =>
    if c = sep then [[], rest]
    else
      match splitN2Char sep rest with
      | [] => [[c]]
      | g :: gs => (c :: g) :: gs

/-- Whether `needle` occurs contiguously inside `hay`; model of Go
`strings.Contains` on character lists. -/
def listHasInfix (hay needle : List Char) : Bool :=
  needle.isPrefixOf hay ||
    match hay with
    | [] => false
    | _ :: t => listHasInfix t needle

/-- Model of Go `strings.Contains`. -/
def goContains (s sub : String) : Bool :=
  listHasInfix s.data sub.data

/-- Model of Go `strings.TrimSpace` (whitespace here is the ASCII subset
relevant to ffmpeg progress lines). -/
def trimChars (cs : List Char) : List Char :=
  ((cs.dropWhile Char.isWhitespace).reverse.dropWhile Char.isWhitespace).reverse

/-- Value of a digit string read in base 10. -/
def digitsToNat (cs : List Char) : ℕ :=
  cs.foldl (fun a c => 10 * a + (c.toNat - 48)) 0

/-- Unsigned decimal mantissa of Go `strconv.ParseFloat`: digit characters
with at most one decimal point and at least one digit. -/
def parseUnsignedGoFloat (cs : List Char) : Option ℚ :=
  match splitOnChar '.' cs with
  | [intPart] =>
    if intPart ≠ [] ∧ intPart.all Char.isDigit then some (digitsToNat intPart) else none
  | [intPart, fracPart] =>
    if (intPart ≠ [] ∨ fracPart ≠ []) ∧ intPart.all Char.isDigit ∧ fracPart.all Char.isDigit then
      some ((digitsToNat intPart : ℚ) + (digitsToNat fracPart : ℚ) / ((10 : ℚ) ^ fracPart.length))
    else none
  | _ => none

/-- Model of Go `strconv.ParseFloat` on its plain-decimal subset: optional
sign followed by a decimal mantissa; `none` models a parse error. -/
def parseGoFloatChars (cs : List Char) : Option ℚ :=
  match cs with
  | [] => none
  | c :: rest =>
    if c = '+' then parseUnsignedGoFloat rest
    else if c = '-' then (parseUnsignedGoFloat rest).map (fun v => -v)
    else parseUnsignedGoFloat (c :: rest)

/-- `strconv.ParseFloat` model on strings. -/
def parseGoFloat (s : String) : Option ℚ :=
  parseGoFloatChars s.data

/-- Model of Go `math.Round`: round half away from zero. -/
def goRound (q : ℚ) : ℤ :=
  if 0 ≤ q then ⌊q + 1 / 2⌋ else -⌊-q + 1 / 2⌋

/-- Embedding of `clamp` from `main.go`. -/
def clamp (value min max : ℤ) : ℤ :=
  if value < min then min
  else if value > max then max
  else value

/-- Embedding of the constant `progressBroadcastStep` (emit every 5%). -/
def progressBroadcastStep : ℤ := 5

/-- Embedding of `progressFromTimestamp` from `main.go`. -/
def progressFromTimestamp (value : String) (durationSeconds unitsPerSecond : ℚ) : ℤ :=
  if durationSeconds ≤ 0 ∨ unitsPerSecond ≤ 0 then 0
  else
    match parseGoFloat value with
    | none => 0
    | some raw =>
      let seconds := raw / unitsPerSecond
      let percent := goRound (seconds / durationSeconds * 100)
      clamp percent 0 100

/-- Embedding of `parseColonDuration` from `main.go`. -/
def parseColonDuration (raw : String) : ℚ :=
  match splitOnChar ':' raw.data with
  | [h, m, s] =>
    match parseGoFloatChars h, parseGoFloatChars m, parseGoFloatChars s with
    | some hours, some minutes, some seconds => hours * 3600 + minutes * 60 + seconds
    | _, _, _ => 0
  | _ => 0

/-- Embedding of `parseDurationSeconds` from `main.go`. -/
def parseDurationSeconds (raw : String) : ℚ :=
  if raw = "" then 0
  else
    match parseGoFloat raw with
    | some value => value
    | none => if raw.data.contains ':' then parseColonDuration raw else 0

/-- Embedding of `progressFromTimecode` from `main.go`. -/
def progressFromTimecode (value : String) (durationSeconds : ℚ) : ℤ :=
  if durationSeconds ≤ 0 then 0
  else
    let seconds := parseDurationSeconds value
    if seconds ≤ 0 then 0
    else
      let percent := goRound (seconds / durationSeconds * 100)
      clamp percent 0 100

/-- Embedding of `progressFromFrame` from `main.go`. -/
def progressFromFrame (frameValue : String) (totalFrames : ℚ) : ℤ :=
  if totalFrames ≤ 0 then 0
  else
    match parseGoFloat frameValue with
    | none => 0
    | some currentFrame =>
      let percent := goRound (currentFrame / totalFrames * 100)
      clamp percent 0 100

/-- Embedding of `parseFraction` from `main.go`. -/
def parseFraction (raw : String) : ℚ :=
  if raw = "" then 0
  else if ¬ raw.data.contains '/' then
    match parseGoFloat raw with
    | none => 0
    | some value => value
  else
    match splitN2Char '/' raw.data with
    | [n, d] =>
      match parseGoFloatChars n, parseGoFloatChars d with
      | some numerator, some denominator =>
        if denominator = 0 then 0 else numerator / denominator
      | _, _ => 0
    | _ => 0

/-- Embedding of `shouldEmitProgress` from `main.go`. -/
def shouldEmitProgress (current last : ℤ) : Bool :=
  if current ≤ last then false
  else if 100 ≤ current then true
  else last + progressBroadcastStep ≤ current

/-- Embedding of the `ffprobeStream` record from `main.go` (JSON fields
`codec_name`, `width`, `height`, `duration`, `nb_frames`, `avg_frame_rate`;
numeric-looking fields are strings, possibly empty). -/
structure ffprobeStream where
  CodecName : String
  Width : ℤ
  Height : ℤ
  Duration : String
  NbFrames : String
  AvgFrameRate : String
deriving DecidableEq

/-- Embedding of `firstVideoStream` from `main.go`: the first stream with
positive width or height, else the first stream overall, else none. -/
def firstVideoStream (streams : List ffprobeStream) : Option ffprobeStream :=
  match streams.find? (fun s => decide (0 < s.Width ∨ 0 < s.Height)) with
  | some s => some s
  | none => streams.head?

/-- The fall-through of `parseFrameCount` from `main.go`: derive the total
frame count from the stream's average frame rate and its own duration
field. -/
def parseFrameCountFromRate (s : ffprobeStream) : ℚ :=
  let rate := parseFraction s.AvgFrameRate
  if rate ≤ 0 then 0
  else
    let duration := parseDurationSeconds s.Duration
    if duration ≤ 0 then 0 else duration * rate

/-- Embedding of `parseFrameCount` from `main.go` (a `none` stream models the
Go `nil` pointer). -/
def parseFrameCount (stream : Option ffprobeStream) : ℚ :=
  match stream with
  | none => 0
  | some s =>
    match parseGoFloat s.NbFrames with
    | some frames =>
      if 0 < frames then frames
      else parseFrameCountFromRate s
    | none => parseFrameCountFromRate s

/-- Embedding of `durationFromFrames` from `main.go`. -/
def durationFromFrames (nbFrames avgFrameRate : String) : ℚ :=
  match parseGoFloat nbFrames with
  | none => 0
  | some frames =>
    if frames ≤ 0 then 0
    else
      let rate := parseFraction avgFrameRate
      if rate ≤ 0 then 0 else frames / rate

/-- Embedding of the duration-fallback chain of `handleConvert`
(`main.go` lines 293-300): container duration, else the primary stream's own
duration, else `durationFromFrames` on the stream's frame data. -/
def resolveDurationSeconds (containerDuration : String)
    (primaryStream : Option ffprobeStream) : ℚ :=
  let durationSeconds := parseDurationSeconds containerDuration
  if durationSeconds ≤ 0 then
    match primaryStream with
    | none => durationSeconds
    | some stream =>
      let streamDuration := parseDurationSeconds stream.Duration
      if streamDuration ≤ 0 then
        durationFromFrames stream.NbFrames stream.AvgFrameRate
      else streamDuration
  else durationSeconds

/-- Embedding of `conversionProcess` from `main.go`: `hasProcess` models
`cmd.Process != nil` (a live handle), `cancelled` the cancellation flag. -/
structure conversionProcess where
  hasProcess : Bool
  cancelled : Bool
deriving DecidableEq

/-- The conversion manager's table, modelled as an association list keyed by
file name (Go: `map[string]*conversionProcess` under a mutex). -/
abbrev Registry := List (String × conversionProcess)

/-- Lookup in the conversion table (Go: `m.conversions[name]`). -/
def regLookup (m : Registry) (name : String) : Option conversionProcess :=
  (m.find? (fun e => e.1 = name)).map (fun e => e.2)

/-- Embedding of `conversionManager.remove`: `delete(m.conversions, name)`. -/
def regRemove (m : Registry) (name : String) : Registry :=
  m.filter (fun e => e.1 ≠ name)

/-- Embedding of `conversionManager.store`: insert/overwrite a fresh
process entry (cancelled flag initially false, live handle present). -/
def regStore (m : Registry) (name : String) : Registry :=
  (name, ⟨true, false⟩) :: regRemove m name

/-- Embedding of `conversionManager.cancel` from `main.go`. `killOk` models
whether `proc.cmd.Process.Kill()` succeeds; the result is the updated table
together with the Go return values `(*conversionProcess, bool)`. -/
def cancel (killOk : Bool) (m : Registry) (name : String) :
    Registry × Option conversionProcess × Bool :=
  match regLookup m name with
  | none => (m, none, false)
  | some proc =>
    if proc.hasProcess = false then (m, none, false)
    else if killOk = false then (m, some proc, false)
    else (regRemove m name, some { proc with cancelled := true }, true)

/-- Embedding of `mapFFmpegError` from `main.go`: classify the captured
stderr buffer into a user-facing message and an HTTP status. -/
def mapFFmpegError (stderr format : String) : String × ℕ :=
  if goContains stderr "Unknown encoder" then
    ("Unsupported output format: " ++ format, 400)
  else if goContains stderr "Invalid data found" then
    ("Invalid or corrupted video file", 400)
  else if goContains stderr "No space left" then
    ("Server storage full. Please try again later.", 500)
  else if goContains stderr "ffmpeg version" then
    ("Conversion failed", 500)
  else if stderr ≠ "" then (stderr, 500)
  else ("Conversion failed", 500)

/-- One event pushed through the socket channel: either a
`conversion-progress` broadcast or a `conversion-error` broadcast. -/
inductive Emission where
  | progressUpdate (fileName : String) (progress : ℤ) (outputName : String) (completed : Bool)
  | errorEvent (fileName : String) (message : String)
deriving DecidableEq

/-- Embedding of `serverState.emitProgress`: the payload's progress field is
clamped to `[0,100]` before broadcast. -/
def emitProgressPayload (fileName : String) (progress : ℤ) (outputName : String)
    (completed : Bool) : Emission :=
  Emission.progressUpdate fileName (clamp progress 0 100) outputName completed

/-- The unconditional 0% update sent by `handleConvert` before the
subprocess starts (`main.go` line 305). -/
def initialProgressEmission (fileName outputName : String) : Emission :=
  emitProgressPayload fileName 0 outputName false

/-- Embedding of the `cancel-conversion` socket handler from `main.go`
(lines 104-114): attempt a registry cancel and, only when it reports ok,
broadcast the user-facing cancellation message. -/
def cancelConversionHandler (killOk : Bool) (m : Registry) (fileName : String) :
    Registry × List Emission :=
  if fileName = "" then (m, [])
  else
    let r := cancel killOk m fileName
    if r.2.2 then (r.1, [Emission.errorEvent fileName "Conversion cancelled by user"])
    else (r.1, [])

/-- What `handleConvert` does after `cmd.Wait()` and reader drain
(`main.go` lines 392-445), as a function of the observable inputs:
the job's cancellation flag, whether `Wait` returned an error, the captured
stderr buffer, the requested format, and whether the output probe succeeds. -/
structure TerminalResult where
  removedOutput : Bool
  responseStatus : ℕ
  responseMessage : String
  emittedError : Option String
  success : Bool
deriving DecidableEq

/-- Embedding of the terminal determination of `handleConvert`. -/
def terminalDetermination (cancelled waitErr : Bool) (stderr format : String)
    (outputProbeOk : Bool) : TerminalResult :=
  if cancelled then
    { removedOutput := true
      responseStatus := 409
      responseMessage := "Conversion cancelled by user"
      emittedError := none
      success := false }
  else if waitErr then
    let r := mapFFmpegError stderr format
    { removedOutput := true
      responseStatus := r.2
      responseMessage := r.1
      emittedError := some r.1
      success := false }
  else if outputProbeOk = false then
    { removedOutput := false
      responseStatus := 500
      responseMessage := "Conversion completed but metadata lookup failed"
      emittedError := none
      success := false }
  else
    { removedOutput := false
      responseStatus := 200
      responseMessage := ""
      emittedError := none
      success := true }

/-- The reader goroutine's `lastReported` initial value
(`main.go` line 342): `-progressBroadcastStep`. -/
def readerInitialLastReported : ℤ := -progressBroadcastStep

/-- The shared emit-or-skip block of the reader goroutine: update
`lastReported` and emit exactly when `shouldEmitProgress` accepts the
candidate. -/
def throttleStep (fileName outputName : String) (lastReported currentProgress : ℤ) :
    ℤ × List Emission :=
  if shouldEmitProgress currentProgress lastReported then
    (currentProgress, [emitProgressPayload fileName currentProgress outputName false])
  else (lastReported, [])

/-- One iteration of the reader goroutine (`main.go` lines 343-382): split a
progress line at the first `=`, trim both sides, dispatch on the key, and
emit through the throttle (the `progress=end` terminal marker bypasses it). -/
def processProgressLine (fileName outputName : String) (totalFrames durationSeconds : ℚ)
    (lastReported : ℤ) (line : String) : ℤ × List Emission :=
  match splitN2Char '=' line.data with
  | [k, v] =>
    let key := trimChars k
    let value := trimChars v
    if key = "frame".data then
      throttleStep fileName outputName lastReported
        (progressFromFrame (String.mk value) totalFrames)
    else if key = "out_time_ms".data then
      throttleStep fileName outputName lastReported
        (progressFromTimestamp (String.mk value) durationSeconds 1000)
    else if key = "out_time_us".data then
      throttleStep fileName outputName lastReported
        (progressFromTimestamp (String.mk value) durationSeconds 1000000)
    else if key = "out_time".data then
      throttleStep fileName outputName lastReported
        (progressFromTimecode (String.mk value) durationSeconds)
    else if key = "progress".data then
      if value = "end".data then
        (lastReported, [emitProgressPayload fileName 100 outputName true])
      else (lastReported, [])
    else (lastReported, [])
  | _ => (lastReported, [])

/-- The reader goroutine run over a whole list of progress lines, starting
from `lastReported = -progressBroadcastStep`, collecting emissions in
order. -/
def runProgressReader (fileName outputName : String) (totalFrames durationSeconds : ℚ)
    (lines : List String) : ℤ × List Emission :=
  lines.foldl
    (fun acc line =>
      let step := processProgressLine fileName outputName totalFrames durationSeconds
        acc.1 line
      (step.1, acc.2 ++ step.2))
    (readerInitialLastReported, [])

/-- The throttle discipline abstracted to candidate percentages: starting
from last-forwarded value `last`, forward exactly the candidates accepted by
`shouldEmitProgress`, updating the tracker on each forward. -/
def throttleRun (last : ℤ) : List ℤ → List ℤ
  | [] => []
  | c :: cs =>
    if shouldEmitProgress c last then c :: throttleRun c cs
    else throttleRun last cs

theorem clamp_nonneg_le_100 (v : ℤ) : 0 ≤ clamp v 0 100 ∧ clamp v 0 100 ≤ 100 := by
  simp only [clamp]
  split_ifs <;> omega

/-- C1: every progress-normalization function yields an integer in [0,100]
for all inputs; the frame kind computes `round(currentFrame/totalFrames×100)`
clamped and is 0 on a non-positive total or a parse failure; the timestamp
kind divides the parsed raw value by the unit divisor and computes
`round(seconds/durationSeconds×100)` clamped, and is 0 on a non-positive
duration, a non-positive divisor, or a parse failure. -/
theorem C1_progress_normalization :
    (∀ (v : String) (tf : ℚ),
      0 ≤ progressFromFrame v tf ∧ progressFromFrame v tf ≤ 100) ∧
    (∀ (v : String) (ds ups : ℚ),
      0 ≤ progressFromTimestamp v ds ups ∧ progressFromTimestamp v ds ups ≤ 100) ∧
    (∀ (v : String) (ds : ℚ),
      0 ≤ progressFromTimecode v ds ∧ progressFromTimecode v ds ≤ 100) ∧
    (∀ (v : String) (tf : ℚ), tf ≤ 0 ∨ parseGoFloat v = none →
      progressFromFrame v tf = 0) ∧
    (∀ (v : String) (tf raw : ℚ), 0 < tf → parseGoFloat v = some raw →
      progressFromFrame v tf = clamp (goRound (raw / tf * 100)) 0 100) ∧
    (∀ (v : String) (ds ups : ℚ), ds ≤ 0 ∨ ups ≤ 0 ∨ parseGoFloat v = none →
      progressFromTimestamp v ds ups = 0) ∧
    (∀ (v : String) (ds ups raw : ℚ), 0 < ds → 0 < ups → parseGoFloat v = some raw →
      progressFromTimestamp v ds ups = clamp (goRound (raw / ups / ds * 100)) 0 100) := by
  refine ⟨?_, ?_, ?_, ?_, ?_, ?_, ?_⟩
  · intro v tf
    simp only [progressFromFrame]
    split_ifs with h
    · exact ⟨le_refl 0, by norm_num⟩
    · rcases hp : parseGoFloat v with _ | raw <;> simp only [hp]
      · exact ⟨le_refl 0, by norm_num⟩
      · exact clamp_nonneg_le_100 _
  · intro v ds ups
    simp only [progressFromTimestamp]
    split_ifs with h
    · exact ⟨le_refl 0, by norm_num⟩
    · rcases hp : parseGoFloat v with _ | raw <;> simp only [hp]
      · exact ⟨le_refl 0, by norm_num⟩
      · exact clamp_nonneg_le_100 _
  · intro v ds
    simp only [progressFromTimecode]
    split_ifs with h h2
    · exact ⟨le_refl 0, by norm_num⟩
    · exact ⟨le_refl 0, by norm_num⟩
    · exact clamp_nonneg_le_100 _
  · intro v tf h
    rcases h with h | h
    · simp only [progressFromFrame, if_pos h]
    · simp only [progressFromFrame, h]
      split_ifs <;> rfl
  · intro v tf raw htf hp
    simp only [progressFromFrame, hp]
    rw [if_neg (by exact absurd · (not_le.mpr htf))]
  · intro v ds ups h
    simp only [progressFromTimestamp]
    rcases h with h | h | h
    · rw [if_pos (Or.inl h)]
    · rw [if_pos (Or.inr h)]
    · split_ifs with hif
      · rfl
      · simp only [h]
  · intro v ds ups raw hds hups hp
    simp only [progressFromTimestamp, hp]
    rw [if_neg]
    push_neg
    exact ⟨hds, hups⟩

/-- Witness for C1 at a concrete input: `frame=7` with 10 total frames. -/
theorem C1_progress_normalization_witness :
    (0 : ℚ) < 10 ∧ parseGoFloat "7" = some 7 ∧
      progressFromFrame "7" 10 = clamp (goRound (7 / 10 * 100)) 0 100 := by
  have h1 : (0 : ℚ) < 10 := by norm_num
  have h2 : parseGoFloat "7" = some 7 := by
    simp +decide [parseGoFloat, parseGoFloatChars, parseUnsignedGoFloat, splitOnChar,
      digitsToNat]
  exact ⟨h1, h2, C1_progress_normalization.2.2.2.2.1 "7" 10 7 h1 h2⟩

theorem shouldEmitProgress_iff (current last : ℤ) :
    shouldEmitProgress current last = true ↔
      last < current ∧ (100 ≤ current ∨ last + progressBroadcastStep ≤ current) := by
  simp only [shouldEmitProgress, progressBroadcastStep]
  split_ifs with h1 h2 <;> simp <;> omega

theorem throttleRun_strict (last : ℤ) (cs : List ℤ) :
    (∀ x ∈ throttleRun last cs, last < x) ∧
      List.Chain' (· < ·) (throttleRun last cs) := by
  induction cs generalizing last with
  | nil => simp [throttleRun]
  | cons c cs ih =>
    rcases h : shouldEmitProgress c last with _ | _
    · simpa [throttleRun, h] using ih last
    · have hlt : last < c := ((shouldEmitProgress_iff c last).mp h).1
      simp only [throttleRun, h, if_pos]
      constructor
      · intro x hx
        rcases List.mem_cons.mp hx with rfl | hx
        · exact hlt
        · exact hlt.trans ((ih c).1 x hx)
      · refine List.chain'_cons'.mpr ⟨?_, (ih c).2⟩
        intro y hy
        exact (ih c).1 y (List.mem_of_mem_head? hy)

/-- C2: a candidate percent is forwarded exactly when it is strictly above
the last forwarded value and either reaches 100 or clears the 5-point step;
the forwarded sequence produced by the throttle from any non-decreasing
candidate sequence is strictly increasing; and the `progress=end` terminal
line emits 100 regardless of the throttle state. -/
theorem C2_emission_throttle :
    (∀ current last : ℤ,
      shouldEmitProgress current last = true ↔
        last < current ∧ (100 ≤ current ∨ last + progressBroadcastStep ≤ current)) ∧
    (∀ (last : ℤ) (candidates : List ℤ), List.Chain' (· ≤ ·) candidates →
      List.Chain' (· < ·) (throttleRun last candidates)) ∧
    (∀ (fileName outputName : String) (totalFrames durationSeconds : ℚ) (last : ℤ),
      processProgressLine fileName outputName totalFrames durationSeconds last
          "progress=end" =
        (last, [Emission.progressUpdate fileName 100 outputName true])) := by
  refine ⟨shouldEmitProgress_iff, ?_, ?_⟩
  · intro last candidates _
    exact (throttleRun_strict last candidates).2
  · intro fileName outputName totalFrames durationSeconds last
    simp +decide [processProgressLine, splitN2Char, trimChars, emitProgressPayload, clamp]

/-- Witness for C2: the throttle over the spec's example candidate run
starting from the reader's initial tracker. -/
theorem C2_emission_throttle_witness :
    List.Chain' (· ≤ ·) [0, 20, 49, 61, 100] ∧
      List.Chain' (· < ·) (throttleRun readerInitialLastReported [0, 20, 49, 61, 100]) :=
  ⟨by norm_num [List.chain'_cons],
    C2_emission_throttle.2.1 readerInitialLastReported [0, 20, 49, 61, 100]
      (by norm_num [List.chain'_cons])⟩

theorem parseGoFloat_empty : parseGoFloat "" = none := rfl

/-- C3: duration parsing tries plain decimal first; only on failure and in
the presence of a colon is the colon form tried, which requires exactly
three parts and evaluates hours×3600 + minutes×60 + seconds;
`"01:02:03.5"` gives 3723.5 and the two-part `"1:02"` gives 0. -/
theorem C3_duration_parsing :
    (∀ (raw : String) (v : ℚ), parseGoFloat raw = some v →
      parseDurationSeconds raw = v) ∧
    (∀ raw : String, parseGoFloat raw = none → raw.data.contains ':' = true →
      parseDurationSeconds raw = parseColonDuration raw) ∧
    (∀ raw : String, parseGoFloat raw = none → raw.data.contains ':' = false →
      parseDurationSeconds raw = 0) ∧
    (∀ (raw : String) (hp mp sp : List Char) (hq mq sq : ℚ),
      splitOnChar ':' raw.data = [hp, mp, sp] →
      parseGoFloatChars hp = some hq → parseGoFloatChars mp = some mq →
      parseGoFloatChars sp = some sq →
      parseColonDuration raw = hq * 3600 + mq * 60 + sq) ∧
    (∀ raw : String, (splitOnChar ':' raw.data).length ≠ 3 →
      parseColonDuration raw = 0) ∧
    parseDurationSeconds "01:02:03.5" = 3723.5 ∧
    parseDurationSeconds "1:02" = 0 := by
  refine ⟨?_, ?_, ?_, ?_, ?_, ?_, ?_⟩
  · intro raw v h
    have hne : raw ≠ "" := by
      rintro rfl
      rw [parseGoFloat_empty] at h
      exact Option.noConfusion h
    simp only [parseDurationSeconds, if_neg hne, h]
  · intro raw h hc
    by_cases hne : raw = ""
    · subst hne
      simp at hc
    · simp only [parseDurationSeconds, if_neg hne, h, hc, if_pos]
  · intro raw h hc
    by_cases hne : raw = ""
    · subst hne
      simp [parseDurationSeconds]
    · simp only [parseDurationSeconds, if_neg hne, h, hc]
      simp
  · intro raw hp mp sp hq mq sq hsplit h1 h2 h3
    simp only [parseColonDuration, hsplit, h1, h2, h3]
  · intro raw hlen
    simp only [parseColonDuration]
    rcases hsp : splitOnChar ':' raw.data with _ | ⟨a, _ | ⟨b, _ | ⟨c, _ | ⟨d, t⟩⟩⟩⟩ <;>
      simp [hsp] at hlen ⊢
  · simp +decide [parseDurationSeconds, parseGoFloat, parseGoFloatChars,
      parseUnsignedGoFloat, splitOnChar, digitsToNat, parseColonDuration]
    norm_num
  · simp +decide [parseDurationSeconds, parseGoFloat, parseGoFloatChars,
      parseUnsignedGoFloat, splitOnChar, digitsToNat, parseColonDuration]

/-- Witness for C3 at a concrete input: `"2.5"` parses as a plain decimal. -/
theorem C3_duration_parsing_witness :
    parseGoFloat "2.5" = some (5 / 2) ∧ parseDurationSeconds "2.5" = 5 / 2 := by
  have h : parseGoFloat "2.5" = some (5 / 2) := by
    simp +decide [parseGoFloat, parseGoFloatChars, parseUnsignedGoFloat, splitOnChar,
      digitsToNat]
    norm_num
  exact ⟨h, C3_duration_parsing.1 "2.5" (5 / 2) h⟩

/-- C4: the duration estimate takes the container duration when positive,
else the primary stream's own duration field, else total frames divided by
the average frame rate, where the rate parses as a decimal or a fraction
and a zero denominator or unparseable part gives unknown (0); the concrete
fallback example with `nb_frames="300"` and `avg_frame_rate="30/1"` yields
10 seconds. -/
theorem C4_duration_resolution :
    (∀ (c : String) (ps : Option ffprobeStream), 0 < parseDurationSeconds c →
      resolveDurationSeconds c ps = parseDurationSeconds c) ∧
    (∀ (c : String) (s : ffprobeStream), parseDurationSeconds c ≤ 0 →
      0 < parseDurationSeconds s.Duration →
      resolveDurationSeconds c (some s) = parseDurationSeconds s.Duration) ∧
    (∀ (c : String) (s : ffprobeStream), parseDurationSeconds c ≤ 0 →
      parseDurationSeconds s.Duration ≤ 0 →
      resolveDurationSeconds c (some s) =
        durationFromFrames s.NbFrames s.AvgFrameRate) ∧
    (∀ (nb fr : String) (frames : ℚ), parseGoFloat nb = some frames → 0 < frames →
      0 < parseFraction fr → durationFromFrames nb fr = frames / parseFraction fr) ∧
    (∀ nb fr : String, parseGoFloat nb = none → durationFromFrames nb fr = 0) ∧
    (∀ (nb fr : String) (frames : ℚ), parseGoFloat nb = some frames → frames ≤ 0 →
      durationFromFrames nb fr = 0) ∧
    (∀ (nb fr : String) (frames : ℚ), parseGoFloat nb = some frames →
      parseFraction fr ≤ 0 → durationFromFrames nb fr = 0) ∧
    (∀ (r : String) (v : ℚ), r.data.contains '/' = false → parseGoFloat r = some v →
      parseFraction r = v) ∧
    (∀ (r : String) (n d : List Char) (nq dq : ℚ), r ≠ "" →
      r.data.contains '/' = true → splitN2Char '/' r.data = [n, d] →
      parseGoFloatChars n = some nq → parseGoFloatChars d = some dq → dq ≠ 0 →
      parseFraction r = nq / dq) ∧
    (∀ (r : String) (n d : List Char), r.data.contains '/' = true →
      splitN2Char '/' r.data = [n, d] →
      (parseGoFloatChars n = none ∨ parseGoFloatChars d = none ∨
        parseGoFloatChars d = some 0) →
      parseFraction r = 0) ∧
    resolveDurationSeconds ""
      (some { CodecName := "", Width := 0, Height := 0, Duration := "",
              NbFrames := "300", AvgFrameRate := "30/1" }) = 10 := by
  refine ⟨?_, ?_, ?_, ?_, ?_, ?_, ?_, ?_, ?_, ?_, ?_⟩
  · intro c ps h
    simp only [resolveDurationSeconds, if_neg (not_le.mpr h)]
  · intro c s hc hs
    simp only [resolveDurationSeconds, if_pos hc, if_neg (not_le.mpr hs)]
  · intro c s hc hs
    simp only [resolveDurationSeconds, if_pos hc, if_pos hs]
  · intro nb fr frames hp hframes hrate
    simp only [durationFromFrames, hp, if_neg (not_le.mpr hframes),
      if_neg (not_le.mpr hrate)]
  · intro nb fr hp
    simp only [durationFromFrames, hp]
  · intro nb fr frames hp hle
    simp only [durationFromFrames, hp, if_pos hle]
  · intro nb fr frames hp hrate
    simp only [durationFromFrames, hp]
    split_ifs with h1 <;> rfl
  · intro r v hc hp
    have hne : r ≠ "" := by
      rintro rfl
      rw [parseGoFloat_empty] at hp
      exact Option.noConfusion hp
    simp only [parseFraction, if_neg hne, hc, Bool.false_eq_true, not_false_eq_true,
      if_pos, hp]
  · intro r n d nq dq hne hc hsplit h1 h2 hdq
    simp only [parseFraction, if_neg hne, hc, not_true_eq_false, if_neg, hsplit,
      h1, h2, if_neg hdq]
    simp
  · intro r n d hc hsplit hfail
    have hne : r ≠ "" := by
      rintro rfl
      simp at hc
    simp only [parseFraction, if_neg hne, hc, not_true_eq_false, if_neg, hsplit]
    rcases hfail with h | h | h
    · simp only [h]
      rcases parseGoFloatChars d with _ | dv <;> simp
    · simp only [h]
      rcases parseGoFloatChars n with _ | nv <;> simp
    · rcases hn : parseGoFloatChars n with _ | nv <;> simp only [h, hn] <;> simp
  · have h300 : parseGoFloat "300" = some 300 := by
      simp +decide [parseGoFloat, parseGoFloatChars, parseUnsignedGoFloat, splitOnChar,
        digitsToNat]
    have h30 : parseFraction "30/1" = 30 := by
      simp +decide [parseFraction, parseGoFloatChars, parseUnsignedGoFloat, splitN2Char,
        splitOnChar, digitsToNat]
    simp only [resolveDurationSeconds, durationFromFrames]
    norm_num [parseDurationSeconds, h300, h30]

/-- Witness for C4 at a concrete input: the frame-based fallback
`300 frames / (30/1) fps = 10 s`. -/
theorem C4_duration_resolution_witness :
    parseGoFloat "300" = some 300 ∧ (0 : ℚ) < 300 ∧ 0 < parseFraction "30/1" ∧
      durationFromFrames "300" "30/1" = 300 / parseFraction "30/1" := by
  have h300 : parseGoFloat "300" = some 300 := by
    simp +decide [parseGoFloat, parseGoFloatChars, parseUnsignedGoFloat, splitOnChar,
      digitsToNat]
  have h30 : parseFraction "30/1" = 30 := by
    simp +decide [parseFraction, parseGoFloatChars, parseUnsignedGoFloat, splitN2Char,
      splitOnChar, digitsToNat]
  have hpos : (0 : ℚ) < parseFraction "30/1" := by rw [h30]; norm_num
  exact ⟨h300, by norm_num, hpos,
    C4_duration_resolution.2.2.2.1 "300" "30/1" 300 h300 (by norm_num) hpos⟩

/-- C5: the total-frame estimate prefers the stream's reported frame count
when it parses positive; otherwise it is the stream's own duration field
times the average frame rate when both are positive; otherwise 0. The
derivation uses the stream's own duration field (`stream.Duration`),
settling the question the claim leaves open. -/
theorem C5_total_frames :
    (∀ (s : ffprobeStream) (frames : ℚ), parseGoFloat s.NbFrames = some frames →
      0 < frames → parseFrameCount (some s) = frames) ∧
    (∀ s : ffprobeStream, (∀ f, parseGoFloat s.NbFrames = some f → f ≤ 0) →
      0 < parseFraction s.AvgFrameRate → 0 < parseDurationSeconds s.Duration →
      parseFrameCount (some s) =
        parseDurationSeconds s.Duration * parseFraction s.AvgFrameRate) ∧
    (∀ s : ffprobeStream, (∀ f, parseGoFloat s.NbFrames = some f → f ≤ 0) →
      parseFraction s.AvgFrameRate ≤ 0 → parseFrameCount (some s) = 0) ∧
    (∀ s : ffprobeStream, (∀ f, parseGoFloat s.NbFrames = some f → f ≤ 0) →
      parseDurationSeconds s.Duration ≤ 0 → parseFrameCount (some s) = 0) ∧
    parseFrameCount none = 0 := by
  refine ⟨?_, ?_, ?_, ?_, rfl⟩
  · intro s frames hp hpos
    simp only [parseFrameCount, hp, if_pos hpos]
  · intro s hnb hrate hdur
    have hfall : parseFrameCountFromRate s =
        parseDurationSeconds s.Duration * parseFraction s.AvgFrameRate := by
      simp only [parseFrameCountFromRate, if_neg (not_le.mpr hrate),
        if_neg (not_le.mpr hdur)]
    rcases hp : parseGoFloat s.NbFrames with _ | f
    · simp only [parseFrameCount, hp, hfall]
    · simp only [parseFrameCount, hp, if_neg (not_lt.mpr (hnb f hp)), hfall]
  · intro s hnb hrate
    have hfall : parseFrameCountFromRate s = 0 := by
      simp only [parseFrameCountFromRate, if_pos hrate]
    rcases hp : parseGoFloat s.NbFrames with _ | f
    · simp only [parseFrameCount, hp, hfall]
    · simp only [parseFrameCount, hp, if_neg (not_lt.mpr (hnb f hp)), hfall]
  · intro s hnb hdur
    have hfall : parseFrameCountFromRate s = 0 := by
      simp only [parseFrameCountFromRate]
      split_ifs <;> rfl
    rcases hp : parseGoFloat s.NbFrames with _ | f
    · simp only [parseFrameCount, hp, hfall]
    · simp only [parseFrameCount, hp, if_neg (not_lt.mpr (hnb f hp)), hfall]

/-- Witness for C5 at a concrete input: `nb_frames="300"` parses positive
and is preferred. -/
theorem C5_total_frames_witness :
    parseGoFloat "300" = some 300 ∧ (0 : ℚ) < 300 ∧
      parseFrameCount
        (some { CodecName := "h264", Width := 1920, Height := 1080,
                Duration := "12", NbFrames := "300", AvgFrameRate := "30/1" }) = 300 := by
  have h300 : parseGoFloat "300" = some 300 := by
    simp +decide [parseGoFloat, parseGoFloatChars, parseUnsignedGoFloat, splitOnChar,
      digitsToNat]
  refine ⟨h300, by norm_num, ?_⟩
  exact C5_total_frames.1 _ 300 h300 (by norm_num)

theorem regLookup_regRemove (m : Registry) (k : String) :
    regLookup (regRemove m k) k = none := by
  induction m with
  | nil => rfl
  | cons e t ih =>
    simp only [regRemove, ne_eq, decide_not] at ih
    by_cases h : e.1 = k
    · simp [regRemove, List.filter_cons, h, ih]
    · simp [regRemove, regLookup, List.filter_cons, List.find?, h, decide_not, ih]

/-- C6: `cancel` is a not-ok no-op when the key is absent or the entry has
no live process handle (in particular after the entry was removed on
completion); a failed kill returns the entry not-ok and leaves the table
and the cancellation flag untouched; a successful kill sets the flag,
removes the entry, and returns ok. -/
theorem C6_registry_cancel :
    (∀ (killOk : Bool) (m : Registry) (k : String), regLookup m k = none →
      cancel killOk m k = (m, none, false)) ∧
    (∀ (killOk : Bool) (m : Registry) (k : String) (p : conversionProcess),
      regLookup m k = some p → p.hasProcess = false →
      cancel killOk m k = (m, none, false)) ∧
    (∀ (m : Registry) (k : String) (p : conversionProcess),
      regLookup m k = some p → p.hasProcess = true →
      cancel false m k = (m, some p, false)) ∧
    (∀ (m : Registry) (k : String) (p : conversionProcess),
      regLookup m k = some p → p.hasProcess = true →
      cancel true m k = (regRemove m k, some { p with cancelled := true }, true)) ∧
    (∀ (killOk : Bool) (m : Registry) (k : String),
      cancel killOk (regRemove m k) k = (regRemove m k, none, false)) := by
  refine ⟨?_, ?_, ?_, ?_, ?_⟩
  · intro killOk m k h
    simp only [cancel, h]
  · intro killOk m k p h hp
    simp [cancel, h, hp]
  · intro m k p h hp
    simp [cancel, h, hp]
  · intro m k p h hp
    simp [cancel, h, hp]
  · intro killOk m k
    simp only [cancel, regLookup_regRemove]

/-- Witness for C6 at a concrete table: cancelling the only live entry
succeeds, sets the flag and removes it. -/
theorem C6_registry_cancel_witness :
    regLookup [("a.mp4", ⟨true, false⟩)] "a.mp4" = some ⟨true, false⟩ ∧
      (⟨true, false⟩ : conversionProcess).hasProcess = true ∧
      cancel true [("a.mp4", ⟨true, false⟩)] "a.mp4" = ([], some ⟨true, true⟩, true) := by
  have h : regLookup [("a.mp4", ⟨true, false⟩)] "a.mp4" = some ⟨true, false⟩ := by decide
  have hc := C6_registry_cancel.2.2.2.1 [("a.mp4", ⟨true, false⟩)] "a.mp4"
    ⟨true, false⟩ h rfl
  exact ⟨h, rfl, hc.trans (by decide)⟩

/-- C7: with the cancellation flag set, the terminal outcome is Cancelled
regardless of the exit status — the output artifact is deleted and the
caller gets a 409 with "Conversion cancelled by user" — and the
cancel-conversion handler reports the user-facing cancellation message
through the event channel on a successful cancel. -/
theorem C7_cancelled_outcome :
    (∀ (waitErr : Bool) (stderr format : String) (probeOk : Bool),
      terminalDetermination true waitErr stderr format probeOk =
        { removedOutput := true, responseStatus := 409,
          responseMessage := "Conversion cancelled by user",
          emittedError := none, success := false }) ∧
    (∀ (m : Registry) (fn : String) (p : conversionProcess), fn ≠ "" →
      regLookup m fn = some p → p.hasProcess = true →
      cancelConversionHandler true m fn =
        (regRemove m fn, [Emission.errorEvent fn "Conversion cancelled by user"])) := by
  constructor
  · intro waitErr stderr format probeOk
    simp [terminalDetermination]
  · intro m fn p hfn h hp
    simp [cancelConversionHandler, cancel, h, hp, hfn]

/-- Witness for C7 at a concrete table: a successful cancel of the only
entry broadcasts the cancellation message. -/
theorem C7_cancelled_outcome_witness :
    ("a.mp4" : String) ≠ "" ∧
      regLookup [("a.mp4", ⟨true, false⟩)] "a.mp4" = some ⟨true, false⟩ ∧
      cancelConversionHandler true [("a.mp4", ⟨true, false⟩)] "a.mp4" =
        ([], [Emission.errorEvent "a.mp4" "Conversion cancelled by user"]) := by
  have h : regLookup [("a.mp4", ⟨true, false⟩)] "a.mp4" = some ⟨true, false⟩ := by decide
  have hc := C7_cancelled_outcome.2 [("a.mp4", ⟨true, false⟩)] "a.mp4" ⟨true, false⟩
    (by decide) h rfl
  exact ⟨by decide, h, hc.trans (by decide)⟩

/-- C8 as stated fails on the code: the substring heuristics of
`mapFFmpegError` are case-sensitive, so a buffer containing the lowercase
text "unknown encoder" is not classified as unsupported-format — it falls
through to the raw-echo branch with server-error status 500, not 400. -/
theorem C8_error_classification_counterexample :
    goContains "unknown encoder: foo" "unknown encoder" = true ∧
      mapFFmpegError "unknown encoder: foo" "avi" = ("unknown encoder: foo", 500) ∧
      (mapFFmpegError "unknown encoder: foo" "avi").1 ≠ "Unsupported output format: avi" ∧
      (mapFFmpegError "unknown encoder: foo" "avi").2 ≠ 400 := by decide

/-- C8 amended: the diagnostic buffer is classified by case-sensitive
substring heuristics — "Unknown encoder" gives the unsupported-format
caller error, "Invalid data found" the corrupt-input caller error,
"No space left" the storage-exhausted server error, the tool's version
banner with nothing more specific a generic failure; otherwise a non-empty
buffer is echoed raw and an empty buffer gives the generic failure; in the
failure terminal path the artifact is deleted and the classified message is
both emitted through the event channel and returned with its status. -/
theorem C8_error_classification :
    (∀ stderr format : String, goContains stderr "Unknown encoder" = true →
      mapFFmpegError stderr format = ("Unsupported output format: " ++ format, 400)) ∧
    (∀ stderr format : String, goContains stderr "Unknown encoder" = false →
      goContains stderr "Invalid data found" = true →
      mapFFmpegError stderr format = ("Invalid or corrupted video file", 400)) ∧
    (∀ stderr format : String, goContains stderr "Unknown encoder" = false →
      goContains stderr "Invalid data found" = false →
      goContains stderr "No space left" = true →
      mapFFmpegError stderr format =
        ("Server storage full. Please try again later.", 500)) ∧
    (∀ stderr format : String, goContains stderr "Unknown encoder" = false →
      goContains stderr "Invalid data found" = false →
      goContains stderr "No space left" = false →
      goContains stderr "ffmpeg version" = true →
      mapFFmpegError stderr format = ("Conversion failed", 500)) ∧
    (∀ stderr format : String, goContains stderr "Unknown encoder" = false →
      goContains stderr "Invalid data found" = false →
      goContains stderr "No space left" = false →
      goContains stderr "ffmpeg version" = false → stderr ≠ "" →
      mapFFmpegError stderr format = (stderr, 500)) ∧
    (∀ format : String, mapFFmpegError "" format = ("Conversion failed", 500)) ∧
    (∀ (stderr format : String) (probeOk : Bool),
      terminalDetermination false true stderr format probeOk =
        { removedOutput := true,
          responseStatus := (mapFFmpegError stderr format).2,
          responseMessage := (mapFFmpegError stderr format).1,
          emittedError := some (mapFFmpegError stderr format).1,
          success := false }) := by
  refine ⟨?_, ?_, ?_, ?_, ?_, ?_, ?_⟩
  · intro stderr format h1
    simp [mapFFmpegError, h1]
  · intro stderr format h1 h2
    simp [mapFFmpegError, h1, h2]
  · intro stderr format h1 h2 h3
    simp [mapFFmpegError, h1, h2, h3]
  · intro stderr format h1 h2 h3 h4
    simp [mapFFmpegError, h1, h2, h3, h4]
  · intro stderr format h1 h2 h3 h4 h5
    simp [mapFFmpegError, h1, h2, h3, h4, h5]
  · intro format
    simp +decide [mapFFmpegError]
  · intro stderr format probeOk
    simp [terminalDetermination]

/-- Witness for C8 at a concrete buffer containing the code's
case-sensitive marker. -/
theorem C8_error_classification_witness :
    goContains "Unknown encoder xyz" "Unknown encoder" = true ∧
      mapFFmpegError "Unknown encoder xyz" "avi" =
        ("Unsupported output format: " ++ "avi", 400) :=
  ⟨by decide, C8_error_classification.1 "Unknown encoder xyz" "avi" (by decide)⟩

/-- C9: a post-success probe failure yields the distinct
"Conversion completed but metadata lookup failed" server error with the
output artifact retained, and it is the only non-success terminal outcome
that does not delete the output artifact. -/
theorem C9_post_success_probe_failure :
    (∀ stderr format : String,
      terminalDetermination false false stderr format false =
        { removedOutput := false, responseStatus := 500,
          responseMessage := "Conversion completed but metadata lookup failed",
          emittedError := none, success := false }) ∧
    (∀ (cancelled waitErr : Bool) (stderr format : String) (probeOk : Bool),
      (terminalDetermination cancelled waitErr stderr format probeOk).success = false →
      (terminalDetermination cancelled waitErr stderr format probeOk).removedOutput
          = false →
      cancelled = false ∧ waitErr = false ∧ probeOk = false) := by
  constructor
  · intro stderr format
    simp [terminalDetermination]
  · intro cancelled waitErr stderr format probeOk hs hr
    cases cancelled <;> cases waitErr <;> cases probeOk <;>
      simp_all [terminalDetermination]

/-- Witness for C9 at a concrete input: subprocess succeeded, output probe
failed. -/
theorem C9_post_success_probe_failure_witness :
    (terminalDetermination false false "x" "mp4" false).success = false ∧
      (terminalDetermination false false "x" "mp4" false).removedOutput = false ∧
      (false = false ∧ false = false ∧ false = false) :=
  ⟨by decide, by decide,
    C9_post_success_probe_failure.2 false false "x" "mp4" false (by decide) (by decide)⟩

/-- C10 (implicit): the reader's tracker starts at `-progressBroadcastStep`,
so a first candidate of 0 passes the throttle, and a job's emission trace
can contain the 0% update twice — once from the orchestrator's
unconditional initial update and once from the reader. -/
theorem C10_duplicate_zero_emission :
    readerInitialLastReported = -progressBroadcastStep ∧
      shouldEmitProgress 0 readerInitialLastReported = true ∧
      initialProgressEmission "a.mp4" "out.webm" ::
          (runProgressReader "a.mp4" "out.webm" 0 10 ["out_time_ms=0"]).2 =
        [Emission.progressUpdate "a.mp4" 0 "out.webm" false,
         Emission.progressUpdate "a.mp4" 0 "out.webm" false] := by
  refine ⟨rfl, by decide, ?_⟩
  have h0 : progressFromTimestamp (String.mk ['0']) 10 1000 = 0 := by
    simp +decide [progressFromTimestamp, parseGoFloat, parseGoFloatChars,
      parseUnsignedGoFloat, splitOnChar, digitsToNat, goRound, clamp]
    norm_num
  simp +decide [runProgressReader, processProgressLine, throttleStep, splitN2Char,
    trimChars, h0, readerInitialLastReported, progressBroadcastStep, shouldEmitProgress,
    initialProgressEmission, emitProgressPayload, clamp]

end Ekko
